import Mathlib

/-!
Shallow embedding of the SkillBridge progression and marketplace engine
(server models User.js, Gig.js incl. the Badge schema, Progress.js, and the
gig/course HTTP routes), together with theorems settling the frozen claims.

Conventions of the embedding:
* JS Date values are integer milliseconds since the epoch (Millis := Int).
* JS numbers that only ever hold integers are Int; fractional arithmetic
  (percentages, criterion progress) is done in Rat.
* On Int, the Lean division by a positive literal is floor division, which
  matches Math.floor(a / b) for b > 0.
* Fallible methods (those that throw) return Except String, carrying the
  thrown message; mongoose save() validation of the schema bound xp >= 0
  (min: 0 on the xp path) is modelled at the save point inside addXP.
-/

namespace SkillBridge

/-- JS Date as integer milliseconds since the epoch. -/
abbrev Millis := Int

/-- Milliseconds per day, the constant 1000 * 60 * 60 * 24 from User.js. -/
def msPerDay : Int := 86400000

/-- Math.round on a nonnegative rational: floor of q + 1/2. -/
def jsRound (q : ℚ) : ℤ := (q + 1/2).floor

/-- Math.ceil (a / b) for integers with b > 0, as used on millisecond gaps. -/
def jsCeilDiv (a b : ℤ) : ℤ := -((-a) / b)

/-- Whether pat is a prefix of s, on character lists. -/
def startsWithChars : List Char → List Char → Bool
  | _, [] => true
  | [], _ :: _ => false
  | c :: cs, p :: ps => c == p && startsWithChars cs ps

/-- Whether pat occurs as a contiguous run inside s, on character lists. -/
def containsChars : List Char → List Char → Bool
  | [], pat => startsWithChars [] pat
  | c :: cs, pat => startsWithChars (c :: cs) pat || containsChars cs pat

/-- JS String.prototype.includes: true iff pat occurs as a substring of s. -/
def strIncludes (s pat : String) : Bool := containsChars s.data pat.data

/-- JS Array.prototype.indexOf on strings: index of the first occurrence,
or -1 when absent. -/
def jsIndexOf (l : List String) (s : String) : ℤ :=
  match l.indexOf? s with
  | some i => (i : ℤ)
  | none => -1

/-! ## User model (models/User.js) -/

/-- The streak subdocument of the user schema. -/
structure Streak where
  current : ℤ
  longest : ℤ
  lastActivityDate : Option Millis
deriving DecidableEq, Repr

/-- One entry of user.badges: an earned badge, optionally course-scoped. -/
structure UserBadgeEntry where
  badgeId : ℕ
  courseId : Option ℕ
deriving DecidableEq, Repr

/-- One entry of user.enrolledCourses, as read by badge criteria checks. -/
structure EnrolledCourse where
  courseId : ℕ
  completed : Bool
deriving DecidableEq, Repr

/-- One entry of user.skills; level is one of beginner, intermediate,
advanced. -/
structure UserSkill where
  name : String
  level : String
deriving DecidableEq, Repr

/-- The rating subdocument of the user schema. -/
structure UserRating where
  average : ℚ
  count : ℤ
deriving DecidableEq, Repr

/-- The slice of the user document the engine reads and writes. -/
structure User where
  xp : ℤ
  level : ℤ
  streak : Streak
  badges : List UserBadgeEntry
  enrolledCourses : List EnrolledCourse
  skills : List UserSkill
  gigsCompleted : ℤ
  rating : UserRating
deriving DecidableEq, Repr

/-- The level determined by an xp total: Math.floor(xp / 1000) + 1.
Int division by the positive literal 1000 is floor division. -/
def levelOf (xp : ℤ) : ℤ := xp / 1000 + 1

/-- userSchema.methods.updateLevel: recompute the level from xp and raise
the stored level if the recomputed one is larger; the Bool reports whether
a level up occurred. The stored level is never lowered. -/
def User.updateLevel (u : User) : User × Bool :=
  let newLevel := levelOf u.xp
  if newLevel > u.level then ({ u with level := newLevel }, true)
  else (u, false)

/-- The body of userSchema.methods.updateStreak, which writes only the
streak subdocument; today is the current Date. -/
def Streak.update (s : Streak) (today : Millis) : Streak :=
  match s.lastActivityDate with
  | none => { s with current := 1, lastActivityDate := some today }
  | some lastActivity =>
    let diffTime := |today - lastActivity|
    let diffDays := jsCeilDiv diffTime msPerDay
    if diffDays = 1 then
      let cur := s.current + 1
      let lng := if cur > s.longest then cur else s.longest
      { current := cur, longest := lng, lastActivityDate := some today }
    else if diffDays > 1 then
      { s with current := 1, lastActivityDate := some today }
    else
      { s with lastActivityDate := some today }

/-- userSchema.methods.updateStreak. -/
def User.updateStreak (u : User) (today : Millis) : User :=
  { u with streak := u.streak.update today }

/-- The result object returned by userSchema.methods.addXP. -/
structure AddXPResult where
  newXP : ℤ
  newLevel : ℤ
  leveledUp : Bool
  xpAdded : ℤ
deriving DecidableEq, Repr

/-- userSchema.methods.addXP: add the amount to xp, recompute the level,
update the streak when the reason mentions course or gig, then save.
save() enforces the schema bound xp >= 0 (min: 0) and fails with a
mongoose ValidationError when it is violated; no other validation of the
amount is performed. -/
def User.addXP (u : User) (xpAmount : ℤ) (reason : String) (today : Millis) :
    Except String (User × AddXPResult) :=
  let u1 := { u with xp := u.xp + xpAmount }
  let lu := u1.updateLevel
  let u2 := lu.1
  let u3 := if strIncludes reason "course" || strIncludes reason "gig" then
      u2.updateStreak today
    else u2
  if u3.xp < 0 then Except.error "ValidationError: xp must be at least 0"
  else Except.ok (u3,
    { newXP := u3.xp, newLevel := u3.level, leveledUp := lu.2, xpAdded := xpAmount })

/-- userSchema.methods.addBadge: push a new badges entry unless one with the
same badgeId (and, when a courseId is given, the same courseId) already
exists; the Bool reports whether an entry was added. -/
def User.addBadge (u : User) (badgeId : ℕ) (courseId : Option ℕ) : User × Bool :=
  let existing := u.badges.find? fun b =>
    b.badgeId == badgeId && (courseId == none || b.courseId == courseId)
  match existing with
  | none => ({ u with badges := u.badges ++ [⟨badgeId, courseId⟩] }, true)
  | some _ => (u, false)

/-! ## Gig model (models/Gig.js) -/

/-- Application status enum of the application subdocument schema. -/
inductive AppStatus
  | pending
  | accepted
  | rejected
  | withdrawn
deriving DecidableEq, Repr

/-- The slice of an application subdocument the lifecycle methods touch. -/
structure Application where
  id : ℕ
  applicantId : ℕ
  status : AppStatus
  appliedAt : Millis
  responseAt : Option Millis
  responseMessage : String
deriving DecidableEq, Repr

/-- Gig status enum of the gig schema. -/
inductive GigStatus
  | draft
  | posted
  | inProgress
  | completed
  | cancelled
  | disputed
deriving DecidableEq, Repr

/-- The rating subdocument of the gig schema, written by completeGig. -/
structure GigRating where
  clientRating : Option ℚ
  clientFeedback : String
  workerRating : Option ℚ
  workerFeedback : String
deriving DecidableEq, Repr

/-- The slice of the gig document the lifecycle methods and queries read
and write. -/
structure Gig where
  id : ℕ
  clientId : ℕ
  status : GigStatus
  applications : List Application
  maxApplications : ℕ
  assignedTo : Option ℕ
  assignedAt : Option Millis
  completedAt : Option Millis
  expiresAt : Millis
  rating : GigRating
deriving DecidableEq, Repr

/-- this.applications.id(applicationId): replace the first subdocument with
the given id (mongoose subdocument ids are the lookup key). -/
def updateFirstApp (apps : List Application) (applicationId : ℕ)
    (f : Application → Application) : List Application :=
  match apps with
  | [] => []
  | a :: rest =>
    if a.id = applicationId then f a :: rest
    else a :: updateFirstApp rest applicationId f

/-- The overwrite updateApplicationStatus applies to the looked-up
application: new status, response stamp, response message. -/
def appWithStatus (a : Application) (status : AppStatus) (msg : String)
    (now : Millis) : Application :=
  { a with status := status, responseAt := some now, responseMessage := msg }

/-- The rejection applied by updateApplicationStatus to every other still
pending application once one application is accepted. -/
def rejectOtherPending (applicationId : ℕ) (now : Millis)
    (a : Application) : Application :=
  if a.id ≠ applicationId ∧ a.status = AppStatus.pending then
    appWithStatus a AppStatus.rejected "Position has been filled" now
  else a

/-- gigSchema.methods.updateApplicationStatus: look the application up by
id (throwing when absent), overwrite its status, responseAt and
responseMessage with no check of its previous status, and on acceptance
assign the gig, move it to in-progress and reject every other pending
application. Returns the updated gig together with the updated
application, as the method returns the mutated subdocument. -/
def Gig.updateApplicationStatus (g : Gig) (applicationId : ℕ)
    (status : AppStatus) (responseMessage : String) (now : Millis) :
    Except String (Gig × Application) :=
  match g.applications.find? (fun a => a.id == applicationId) with
  | none => Except.error "Application not found"
  | some app0 =>
    let app := appWithStatus app0 status responseMessage now
    let apps1 := updateFirstApp g.applications applicationId (fun _ => app)
    if status = AppStatus.accepted then
      Except.ok
        ({ g with assignedTo := some app.applicantId,
                  assignedAt := some now,
                  status := GigStatus.inProgress,
                  applications := apps1.map (rejectOtherPending applicationId now) },
         app)
    else
      Except.ok ({ g with applications := apps1 }, app)

/-- gigSchema.methods.completeGig: set the status to completed, stamp
completedAt, and attach whichever ratings and feedback are truthy. -/
def Gig.completeGig (g : Gig) (clientRating : Option ℚ) (clientFeedback : String)
    (workerRating : Option ℚ) (workerFeedback : String) (now : Millis) : Gig :=
  let r0 := g.rating
  let r1 := match clientRating with
    | some c => if c ≠ 0 then { r0 with clientRating := some c } else r0
    | none => r0
  let r2 := if clientFeedback ≠ "" then { r1 with clientFeedback := clientFeedback } else r1
  let r3 := match workerRating with
    | some w => if w ≠ 0 then { r2 with workerRating := some w } else r2
    | none => r2
  let r4 := if workerFeedback ≠ "" then { r3 with workerFeedback := workerFeedback } else r3
  { g with status := GigStatus.completed, completedAt := some now, rating := r4 }

/-! ### Gig queries and the auto-expiry hooks

gigSchema.pre find and pre findOne conjoin the filter expiresAt > now to
every query, so documents whose expiry is not strictly in the future are
invisible to find, findOne and findById (findById delegates to findOne). -/

/-- Gig.find over a stored collection, with the pre-find expiry hook. -/
def gigFind (db : List Gig) (cond : Gig → Bool) (now : Millis) : List Gig :=
  db.filter fun g => cond g && decide (now < g.expiresAt)

/-- Gig.findOne over a stored collection, with the pre-findOne expiry hook. -/
def gigFindOne (db : List Gig) (cond : Gig → Bool) (now : Millis) : Option Gig :=
  (gigFind db cond now).head?

/-- Gig.findById: findOne on the id, hence also subject to the expiry hook. -/
def gigFindById (db : List Gig) (gid : ℕ) (now : Millis) : Option Gig :=
  gigFindOne db (fun g => g.id == gid) now

/-- PUT /api/gigs/:id/complete (routes/gigs.js): findById, report the gig as
not found when the lookup returns nothing, check ownership, require
status in-progress, then run completeGig. Worker stat updates after the
completion are outside this step. -/
def completeGigRoute (db : List Gig) (gid : ℕ) (userId : ℕ) (isAdmin : Bool)
    (clientRating : Option ℚ) (clientFeedback : String)
    (workerRating : Option ℚ) (workerFeedback : String) (now : Millis) :
    Except String Gig :=
  match gigFindById db gid now with
  | none => Except.error "Gig not found"
  | some g =>
    if g.clientId ≠ userId ∧ isAdmin = false then
      Except.error "Not authorized to complete this gig"
    else if g.status ≠ GigStatus.inProgress then
      Except.error "Gig must be in progress to complete"
    else
      Except.ok (g.completeGig clientRating clientFeedback workerRating workerFeedback now)

/-! ## Course progress model (models/Progress.js) -/

/-- Module progress status enum of the moduleProgress subdocument schema. -/
inductive ModuleStatus
  | notStarted
  | inProgress
  | completed
  | skipped
deriving DecidableEq, Repr

/-- Overall progress status enum of the progress schema. -/
inductive ProgressStatus
  | notStarted
  | inProgress
  | completed
  | abandoned
deriving DecidableEq, Repr

/-- One modulesProgress entry (fields the aggregate recompute reads). -/
structure ModuleProgressEntry where
  moduleId : ℕ
  status : ModuleStatus
  timeSpent : ℤ
  startedAt : Option Millis
  completedAt : Option Millis
deriving DecidableEq, Repr

/-- One quizAttempts entry (fields recordQuizAttempt reads and writes). -/
structure QuizAttempt where
  attemptNumber : ℕ
  score : ℤ
  passed : Bool
  timeSpent : ℤ
deriving DecidableEq, Repr

/-- The slice of the progress document the tracker methods touch. -/
structure Progress where
  userId : ℕ
  courseId : ℕ
  status : ProgressStatus
  progressPercentage : ℤ
  modulesProgress : List ModuleProgressEntry
  quizAttempts : List QuizAttempt
  bestQuizScore : ℤ
  quizPassed : Bool
  startedAt : Option Millis
  completedAt : Option Millis
deriving DecidableEq, Repr

/-- The slice of a course document the aggregate recompute reads: the
modules array (only its length matters) and whether a quiz subdocument is
present. -/
structure Course where
  id : ℕ
  modules : List ℕ
  quiz : Bool
deriving DecidableEq, Repr

/-- progressSchema.methods.recordQuizAttempt: append the attempt with the
next attempt number, raise bestQuizScore when the new score is larger, and
set quizPassed to whether this score reaches the hardcoded passing score
70 — overwriting, not OR-ing, the previous value, and ignoring the passed
flag supplied with the attempt data. -/
def Progress.recordQuizAttempt (p : Progress) (quizData : QuizAttempt) : Progress :=
  let attempt := { quizData with attemptNumber := p.quizAttempts.length + 1 }
  let best := if attempt.score > p.bestQuizScore then attempt.score else p.bestQuizScore
  let passingScore : ℤ := 70
  { p with quizAttempts := p.quizAttempts ++ [attempt],
           bestQuizScore := best,
           quizPassed := decide (attempt.score ≥ passingScore) }

/-- progressSchema.methods.calculateOverallProgress: recompute the rounded
percentage (module share weighted 80 plus 20 for a passed quiz when the
course has one, plain module share otherwise, 0 when the course has no
modules), then derive the status: 100 gives completed and stamps
completedAt only when unset; a positive value below 100 gives in-progress
and stamps startedAt only when unset; 0 leaves the status untouched. -/
def Progress.calculateOverallProgress (p : Progress) (course : Course)
    (now : Millis) : Progress :=
  let totalModules := course.modules.length
  let completedModules :=
    (p.modulesProgress.filter fun m => m.status == ModuleStatus.completed).length
  let pct : ℚ :=
    if 0 < totalModules then
      if course.quiz then
        ((completedModules : ℚ) / (totalModules : ℚ)) * 80 +
          (if p.quizPassed then 20 else 0)
      else ((completedModules : ℚ) / (totalModules : ℚ)) * 100
    else 0
  let p1 : Progress := { p with progressPercentage := jsRound pct }
  if p1.progressPercentage = 100 then
    { p1 with status := ProgressStatus.completed,
              completedAt := if p1.completedAt = none then some now else p1.completedAt }
  else if 0 < p1.progressPercentage then
    { p1 with status := ProgressStatus.inProgress,
              startedAt := if p1.startedAt = none then some now else p1.startedAt }
  else p1

/-- progressSchema.methods.markCompleted: unconditionally set the status to
completed, the percentage to 100, and completedAt to now — even when
completedAt was already stamped. -/
def Progress.markCompleted (p : Progress) (now : Millis) : Progress :=
  { p with status := ProgressStatus.completed,
           progressPercentage := 100,
           completedAt := some now }

/-- The course-completion trigger of the module progress route
(PUT /api/courses/:id/modules/:moduleId/progress in routes/courses.js):
after a completed-module update it calls markCompleted whenever the stored
percentage is 100, with no guard against the course being already
completed. -/
def courseCompletionTrigger (p : Progress) (now : Millis) : Progress :=
  if p.progressPercentage = 100 then p.markCompleted now else p

/-! ## Badge model (the badge schema bundled with models/Gig.js) -/

/-- Badge criteria as a closed tagged variant: the source switches on the
string criterion.type, with criterion.value a string, a number, or an
object name/level depending on the case; the custom case covers the
default branch. -/
inductive Criterion
  | courseCompletionId (courseId : ℕ)
  | courseCompletionCount (n : ℤ)
  | skillLevel (name : String) (level : String)
  | gigCompletion (n : ℤ)
  | ratingThreshold (r : ℚ)
  | xpThreshold (x : ℤ)
  | streakDays (s : ℤ)
  | custom
deriving DecidableEq, Repr

/-- The result object of badgeSchema.methods.checkCriterion. -/
structure CriterionResult where
  meets : Bool
  reason : String
  progress : ℚ
deriving DecidableEq, Repr

/-- The result object of badgeSchema.methods.checkEligibility; reason and
progress are only present on some paths. -/
structure Eligibility where
  eligible : Bool
  reason : String
  progress : Option ℚ
deriving DecidableEq, Repr

/-- The slice of a badge document the engine reads and writes. -/
structure Badge where
  id : ℕ
  name : String
  isActive : Bool
  availableFrom : Millis
  availableUntil : Option Millis
  prerequisites : List ℕ
  criteria : List Criterion
  xpReward : ℤ
  earnedCount : ℤ
deriving DecidableEq, Repr

/-- The levelOrder array of the skill-level criterion evaluator. -/
def levelOrder : List String := ["beginner", "intermediate", "advanced"]

/-- badgeSchema.methods.checkCriterion: evaluate one criterion against the
user, reporting whether it is met and a progress fraction (reasons are
the template strings of the source, elided to fixed tags here since no
claim reads them on met paths). -/
def checkCriterion (u : User) (c : Criterion) : CriterionResult :=
  match c with
  | Criterion.courseCompletionId courseId =>
    let completed := u.enrolledCourses.find? fun e =>
      e.courseId == courseId && e.completed
    { meets := completed.isSome,
      reason := if completed.isSome then "Course completed" else "Course not completed",
      progress := if completed.isSome then 100 else 0 }
  | Criterion.courseCompletionCount n =>
    let completedCount := (u.enrolledCourses.filter fun e => e.completed).length
    { meets := decide ((completedCount : ℤ) ≥ n),
      reason := "courses completed",
      progress := min (((completedCount : ℚ) / (n : ℚ)) * 100) 100 }
  | Criterion.skillLevel nm lvl =>
    let skill := u.skills.find? fun s => s.name.toLower == nm.toLower
    let userLevelIndex := match skill with
      | some s => jsIndexOf levelOrder s.level
      | none => -1
    let requiredLevelIndex := jsIndexOf levelOrder lvl
    { meets := decide (userLevelIndex ≥ requiredLevelIndex),
      reason := "skill level",
      progress := if userLevelIndex ≥ 0 then
          (((userLevelIndex : ℚ) + 1) / ((requiredLevelIndex : ℚ) + 1)) * 100
        else 0 }
  | Criterion.gigCompletion n =>
    { meets := decide (u.gigsCompleted ≥ n),
      reason := "gigs completed",
      progress := min (((u.gigsCompleted : ℚ) / (n : ℚ)) * 100) 100 }
  | Criterion.ratingThreshold r =>
    { meets := decide (u.rating.average ≥ r),
      reason := "rating",
      progress := min ((u.rating.average / r) * 100) 100 }
  | Criterion.xpThreshold x =>
    { meets := decide (u.xp ≥ x),
      reason := "xp",
      progress := min (((u.xp : ℚ) / (x : ℚ)) * 100) 100 }
  | Criterion.streakDays s =>
    { meets := decide (u.streak.current ≥ s),
      reason := "streak days",
      progress := min (((u.streak.current : ℚ) / (s : ℚ)) * 100) 100 }
  | Criterion.custom =>
    { meets := false, reason := "Unknown criterion type", progress := 0 }

/-- The criterion loop of checkEligibility: stop at the first unmet
criterion, returning its reason and progress; eligible when the list is
exhausted. -/
def checkCriteriaList (u : User) : List Criterion → Eligibility
  | [] => { eligible := true, reason := "", progress := none }
  | c :: rest =>
    let r := checkCriterion u c
    if r.meets then checkCriteriaList u rest
    else { eligible := false, reason := r.reason, progress := some r.progress }

/-- badgeSchema.methods.checkEligibility: the short-circuit chain — badge
inactive, not yet available, availability expired, prerequisites missing,
badge already earned — then the criterion loop. -/
def Badge.checkEligibility (b : Badge) (u : User) (now : Millis) : Eligibility :=
  if b.isActive = false then
    { eligible := false, reason := "Badge is not active", progress := none }
  else if b.availableFrom > now then
    { eligible := false, reason := "Badge not yet available", progress := none }
  else if (match b.availableUntil with
           | some t => decide (t < now)
           | none => false) then
    { eligible := false, reason := "Badge availability has expired", progress := none }
  else if 0 < b.prerequisites.length ∧
      ¬ (b.prerequisites.all fun pre => (u.badges.map fun e => e.badgeId).contains pre) then
    { eligible := false, reason := "Prerequisites not met", progress := none }
  else if u.badges.any fun e => e.badgeId == b.id then
    { eligible := false, reason := "Badge already earned", progress := none }
  else
    checkCriteriaList u b.criteria

/-- badgeSchema.methods.awardToUser: re-run checkEligibility and throw its
reason when ineligible; otherwise add the badge to the user, grant the xp
reward through addXP when positive, and increment earnedCount. -/
def Badge.awardToUser (b : Badge) (u : User) (courseId : Option ℕ)
    (now : Millis) : Except String (Badge × User) :=
  let elig := b.checkEligibility u now
  if elig.eligible = false then Except.error elig.reason
  else
    let u1 := (u.addBadge b.id courseId).1
    let afterXP : Except String User :=
      if 0 < b.xpReward then
        (u1.addXP b.xpReward ("Badge earned: " ++ b.name) now).map fun pr => pr.1
      else Except.ok u1
    afterXP.map fun u2 => ({ b with earnedCount := b.earnedCount + 1 }, u2)

/-! ## Concrete sample states used by witnesses and counterexamples -/

/-- A fresh user state with no history. -/
def emptyUser : User :=
  { xp := 0, level := 1,
    streak := { current := 0, longest := 0, lastActivityDate := none },
    badges := [], enrolledCourses := [], skills := [], gigsCompleted := 0,
    rating := { average := 0, count := 0 } }

/-- A user with 2000 xp at the derived level 3. -/
def userXP2000 : User := { emptyUser with xp := 2000, level := 3 }

/-- An empty gig rating subdocument. -/
def emptyGigRating : GigRating :=
  { clientRating := none, clientFeedback := "", workerRating := none,
    workerFeedback := "" }

/-- An application already accepted earlier. -/
def appAccepted1 : Application :=
  { id := 1, applicantId := 7, status := AppStatus.accepted, appliedAt := 0,
    responseAt := some 1, responseMessage := "" }

/-- A pending application. -/
def appPending2 : Application :=
  { id := 2, applicantId := 8, status := AppStatus.pending, appliedAt := 0,
    responseAt := none, responseMessage := "" }

/-- A gig already assigned (one accepted application) that still carries a
pending application. -/
def gigOneAcceptedOnePending : Gig :=
  { id := 10, clientId := 3, status := GigStatus.inProgress,
    applications := [appAccepted1, appPending2], maxApplications := 20,
    assignedTo := some 7, assignedAt := some 1, completedAt := none,
    expiresAt := 1000000, rating := emptyGigRating }

/-- A gig whose only application was already accepted. -/
def gigResolvedApp : Gig :=
  { gigOneAcceptedOnePending with applications := [appAccepted1] }

/-- An in-progress gig whose expiry has already passed at time 100. -/
def gigExpired : Gig :=
  { id := 11, clientId := 3, status := GigStatus.inProgress,
    applications := [], maxApplications := 20, assignedTo := some 7,
    assignedAt := some 1, completedAt := none, expiresAt := 50,
    rating := emptyGigRating }

/-- A progress record whose quiz is already passed with best score 90. -/
def progressQuizPassed : Progress :=
  { userId := 1, courseId := 2, status := ProgressStatus.inProgress,
    progressPercentage := 90,
    modulesProgress := [],
    quizAttempts := [{ attemptNumber := 1, score := 90, passed := true, timeSpent := 60 }],
    bestQuizScore := 90, quizPassed := true, startedAt := some 0,
    completedAt := none }

/-- A progress record in status in-progress with one started (but not
completed) module. -/
def progressStartedModule : Progress :=
  { userId := 1, courseId := 2, status := ProgressStatus.inProgress,
    progressPercentage := 0,
    modulesProgress := [{ moduleId := 1, status := ModuleStatus.inProgress,
                          timeSpent := 5, startedAt := some 0, completedAt := none }],
    quizAttempts := [], bestQuizScore := 0, quizPassed := false,
    startedAt := some 0, completedAt := none }

/-- A one-module course without a quiz. -/
def courseOneModule : Course := { id := 2, modules := [1], quiz := false }

/-- A one-module course with that module completed in the progress record. -/
def progressAllDone : Progress :=
  { progressStartedModule with
    modulesProgress := [{ moduleId := 1, status := ModuleStatus.completed,
                          timeSpent := 5, startedAt := some 0, completedAt := some 1 }] }

/-- A progress record already completed at time 1. -/
def progressCompletedAt1 : Progress :=
  { progressAllDone with
    status := ProgressStatus.completed,
    progressPercentage := 100,
    completedAt := some 1 }

/-- First of three pending applications. -/
def appP1 : Application := ⟨1, 21, AppStatus.pending, 0, none, ""⟩

/-- Second of three pending applications. -/
def appP2 : Application := ⟨2, 22, AppStatus.pending, 0, none, ""⟩

/-- Third of three pending applications. -/
def appP3 : Application := ⟨3, 23, AppStatus.pending, 0, none, ""⟩

/-- A posted gig with three pending applications. -/
def gigThreePending : Gig :=
  { id := 12, clientId := 3, status := GigStatus.posted,
    applications := [appP1, appP2, appP3], maxApplications := 20,
    assignedTo := none, assignedAt := none, completedAt := none,
    expiresAt := 1000000, rating := emptyGigRating }

/-- An active badge with no prerequisites and no criteria. -/
def badgeStarter : Badge :=
  { id := 1, name := "Starter", isActive := true, availableFrom := 0,
    availableUntil := none, prerequisites := [], criteria := [],
    xpReward := 10, earnedCount := 0 }

/-- The badge state after the first award of badgeStarter. -/
def badgeStarterAfter : Badge := { badgeStarter with earnedCount := 1 }

/-- The user state after the first award of badgeStarter to emptyUser:
the badge entry is recorded and the 10 xp reward granted. -/
def userAfterStarter : User := { emptyUser with xp := 10, badges := [⟨1, none⟩] }

/-! ## Theorems settling the claims -/

/-- Claim C1: for a user state with xp at least 0 and level equal to
floor of xp over 1000 plus 1, and an amount at least 0, addXP succeeds and
returns newXP equal to the old xp plus the amount, newLevel equal to
floor of newXP over 1000 plus 1, and leveledUp true exactly when the new
level exceeds the old one; the derived level is monotone in xp. -/
theorem addXP_levelInvariant (u : User) (amount : ℤ) (reason : String)
    (now : Millis) (hxp : 0 ≤ u.xp) (hlvl : u.level = levelOf u.xp)
    (hamt : 0 ≤ amount) :
    ∃ u2 r, u.addXP amount reason now = Except.ok (u2, r) ∧
      r.newXP = u.xp + amount ∧
      r.newLevel = levelOf (u.xp + amount) ∧
      (r.leveledUp = true ↔ u.level < levelOf (u.xp + amount)) ∧
      ∀ x y : ℤ, x ≤ y → levelOf x ≤ levelOf y := by
  have hmono : ∀ x y : ℤ, x ≤ y → levelOf x ≤ levelOf y := by
    intro x y hxy
    unfold levelOf
    omega
  have hge : u.level ≤ levelOf (u.xp + amount) := by
    rw [hlvl]
    exact hmono _ _ (by omega)
  have hnn : ¬ (u.xp + amount < 0) := by omega
  by_cases hstr : (strIncludes reason "course" || strIncludes reason "gig") = true <;>
    by_cases hgt : u.level < levelOf (u.xp + amount) <;>
      simp [User.addXP, User.updateLevel, User.updateStreak, hstr, hgt, hnn, hmono] <;>
        exact ⟨_, _, ⟨rfl, rfl⟩, rfl, by simp <;> omega, rfl, hmono⟩

/-- Claim C7 (amended): updateStreak measures gaps in milliseconds, not
calendar days. With no prior activity the current streak becomes 1 (the
longest is untouched). Otherwise, with dd the ceiling of the absolute
millisecond gap divided by 86400000: dd equal 1 (any positive gap of at
most 24 hours, even within one calendar day) increments current and sets
longest to the maximum of itself and the new current; dd equal 0 (the
timestamps coincide exactly) leaves current and longest unchanged; dd
greater than 1 (a gap above 24 hours, even between consecutive calendar
days) resets current to 1. lastActivityDate becomes today in every case. -/
theorem updateStreak_spec (s : Streak) (today : Millis) :
    (s.lastActivityDate = none →
      s.update today = { s with current := 1, lastActivityDate := some today }) ∧
    (∀ last, s.lastActivityDate = some last →
      (jsCeilDiv |today - last| msPerDay = 1 →
        s.update today =
          { current := s.current + 1,
            longest := max s.longest (s.current + 1),
            lastActivityDate := some today }) ∧
      (jsCeilDiv |today - last| msPerDay = 0 →
        s.update today = { s with lastActivityDate := some today }) ∧
      (1 < jsCeilDiv |today - last| msPerDay →
        s.update today = { s with current := 1, lastActivityDate := some today })) := by
  constructor
  · intro hnone
    unfold Streak.update
    rw [hnone]
  · intro last hlast
    refine ⟨?_, ?_, ?_⟩ <;> intro hdd <;> unfold Streak.update <;> rw [hlast] <;>
      simp only [hdd] <;> norm_num
    · have : (if s.current + 1 > s.longest then s.current + 1 else s.longest) =
          max s.longest (s.current + 1) := by
        rcases le_or_lt (s.current + 1) s.longest with h | h
        · rw [if_neg (by omega), max_eq_left h]
        · rw [if_pos (by omega), max_eq_right (by omega)]
      rw [this]
    · omega

/-- Claim C7 counterexample: two activities one hour apart (timestamps 0
and 3600000) fall on the same UTC calendar day (both have day index 0),
where the claim requires the streak unchanged; the code increments it
because the millisecond gap ceiling is 1. -/
theorem updateStreak_sameDay_counterexample :
    (3600000 : ℤ) / msPerDay = (0 : ℤ) / msPerDay ∧
    ((⟨1, 1, some 0⟩ : Streak).update 3600000).current = 2 := by decide

/-- Claim C7 witness: activity on the next day exactly 24 hours later
increments a current streak of 2 to 3, and the longest of 5 stays. -/
theorem updateStreak_spec_witness :
    (⟨2, 5, some 0⟩ : Streak).update 86400000 =
      { current := 2 + 1, longest := max 5 (2 + 1),
        lastActivityDate := some 86400000 } := by
  have h := (updateStreak_spec ⟨2, 5, some 0⟩ 86400000).2 0 rfl
  exact h.1 (by decide)

/-- Claim C9 (amended): addXP performs no validation of the amount. For a
negative amount it succeeds whenever the resulting xp is still at least 0
(only the schema bound xp at least 0, checked at save, can reject it):
the negative amount is added to xp, while the stored level is left
unchanged because updateLevel never lowers a level, and leveledUp is
false. -/
theorem addXP_negative_spec (u : User) (amount : ℤ) (reason : String)
    (now : Millis) (hneg : amount < 0) (hres : 0 ≤ u.xp + amount)
    (hlvl : u.level = levelOf u.xp) :
    ∃ u2 r, u.addXP amount reason now = Except.ok (u2, r) ∧
      u2.xp = u.xp + amount ∧ u2.level = u.level ∧ r.leveledUp = false := by
  have hle : levelOf (u.xp + amount) ≤ u.level := by
    rw [hlvl]
    unfold levelOf
    omega
  have hgt : ¬ (u.level < levelOf (u.xp + amount)) := by omega
  have hnn : ¬ (u.xp + amount < 0) := by omega
  by_cases hstr : (strIncludes reason "course" || strIncludes reason "gig") = true <;>
    simp [User.addXP, User.updateLevel, User.updateStreak, hstr, hgt, hnn] <;>
      exact ⟨_, _, ⟨rfl, rfl⟩, rfl, rfl, rfl⟩

/-- Claim C9 counterexample: addXP with amount -500 on a user with 2000 xp
succeeds (no ValidationError) and changes xp to 1500, while the claim
requires a failure leaving xp unchanged. -/
theorem addXP_negative_counterexample :
    (userXP2000.addXP (-500) "General activity" 0).toOption.map
      (fun pr => (pr.1.xp, pr.1.level)) = some (1500, 3) := by decide

/-- Claim C1 witness: adding 2500 xp to a fresh user (xp 0, level 1)
succeeds with newXP 2500, newLevel 3, and a level up. -/
theorem addXP_levelInvariant_witness :
    0 ≤ emptyUser.xp ∧ emptyUser.level = levelOf emptyUser.xp ∧
    ∃ u2 r, emptyUser.addXP 2500 "General activity" 0 = Except.ok (u2, r) ∧
      r.newXP = emptyUser.xp + 2500 ∧
      r.newLevel = levelOf (emptyUser.xp + 2500) ∧
      (r.leveledUp = true ↔ emptyUser.level < levelOf (emptyUser.xp + 2500)) ∧
      ∀ x y : ℤ, x ≤ y → levelOf x ≤ levelOf y := by
  refine ⟨by decide, by decide, ?_⟩
  exact addXP_levelInvariant emptyUser 2500 "General activity" 0
    (by decide) (by decide) (by decide)

/-- Claim C9 witness: amount -500 on a user with 2000 xp at level 3 meets
the hypotheses, and the amended conclusions follow. -/
theorem addXP_negative_spec_witness :
    (-500 : ℤ) < 0 ∧ 0 ≤ userXP2000.xp + (-500) ∧
    ∃ u2 r, userXP2000.addXP (-500) "General activity" 0 = Except.ok (u2, r) ∧
      u2.xp = userXP2000.xp + (-500) ∧ u2.level = userXP2000.level ∧
      r.leveledUp = false := by
  refine ⟨by decide, by decide, ?_⟩
  exact addXP_negative_spec userXP2000 (-500) "General activity" 0
    (by decide) (by decide) (by decide)

/-- jsRound of a nonnegative rational is nonnegative. -/
theorem jsRound_nonneg (q : ℚ) (h : 0 ≤ q) : 0 ≤ jsRound q := by
  unfold jsRound
  refine Rat.le_floor.mpr ?_
  push_cast
  linarith

/-- Claim C3 (amended): recordQuizAttempt appends the attempt with the next
attempt number, and sets bestQuizScore to the maximum of the old best and
the new score; but quizPassed is overwritten with whether the new score
reaches the hardcoded passing score 70 (the supplied pass flag is
ignored), so quizPassed reflects only the latest attempt and can revert
from true to false when a later attempt fails. -/
theorem recordQuizAttempt_spec (p : Progress) (qd : QuizAttempt) :
    (p.recordQuizAttempt qd).quizAttempts =
      p.quizAttempts ++ [{ qd with attemptNumber := p.quizAttempts.length + 1 }] ∧
    (p.recordQuizAttempt qd).bestQuizScore = max p.bestQuizScore qd.score ∧
    (p.recordQuizAttempt qd).quizPassed = decide (qd.score ≥ 70) := by
  refine ⟨rfl, ?_, rfl⟩
  simp only [Progress.recordQuizAttempt]
  split <;> omega

/-- Claim C3 counterexample: on a progress record with quizPassed true
(best score 90), recording a failing attempt with score 50 flips
quizPassed back to false, while the claim requires it to remain true. -/
theorem recordQuizAttempt_revert_counterexample :
    progressQuizPassed.quizPassed = true ∧
    (progressQuizPassed.recordQuizAttempt
      { attemptNumber := 0, score := 50, passed := false, timeSpent := 30 }).quizPassed
      = false := by decide

/-- Claim C4 (amended): for a course with at least one module, the
recomputed percentage is the rounded weighted formula (80 times the
completed share plus 20 for a passed quiz when the course has a quiz, 100
times the completed share otherwise); the derived status is completed at
100 and in-progress strictly between 0 and 100, but at 0 the status is
left unchanged rather than being set to not-started. -/
theorem calcOverall_pct (p : Progress) (course : Course) (now : Millis) :
    (p.calculateOverallProgress course now).progressPercentage =
      jsRound (if 0 < course.modules.length then
          (if course.quiz then
            (((p.modulesProgress.filter fun m =>
                m.status == ModuleStatus.completed).length : ℚ) /
              (course.modules.length : ℚ)) * 80 + (if p.quizPassed then 20 else 0)
           else
            (((p.modulesProgress.filter fun m =>
                m.status == ModuleStatus.completed).length : ℚ) /
              (course.modules.length : ℚ)) * 100)
        else 0) := by
  simp only [Progress.calculateOverallProgress,
    apply_ite Progress.progressPercentage, ite_self]

theorem calcOverall_status (p : Progress) (course : Course) (now : Millis) :
    (p.calculateOverallProgress course now).status =
      (if (p.calculateOverallProgress course now).progressPercentage = 100 then
        ProgressStatus.completed
       else if 0 < (p.calculateOverallProgress course now).progressPercentage then
        ProgressStatus.inProgress
       else p.status) := by
  simp only [Progress.calculateOverallProgress,
    apply_ite Progress.progressPercentage, apply_ite Progress.status, ite_self]

theorem calcOverall_completedAt (p : Progress) (course : Course) (now : Millis) :
    (p.calculateOverallProgress course now).completedAt =
      (if (p.calculateOverallProgress course now).progressPercentage = 100 then
        (if p.completedAt = none then some now else p.completedAt)
       else p.completedAt) := by
  simp only [Progress.calculateOverallProgress,
    apply_ite Progress.progressPercentage, apply_ite Progress.completedAt, ite_self]

theorem calcOverall_pct_nonneg (p : Progress) (course : Course) (now : Millis) :
    0 ≤ (p.calculateOverallProgress course now).progressPercentage := by
  rw [calcOverall_pct]
  refine jsRound_nonneg _ ?_
  have base : (0 : ℚ) ≤
      (((p.modulesProgress.filter fun m =>
          m.status == ModuleStatus.completed).length : ℚ) /
        (course.modules.length : ℚ)) := by positivity
  split
  · split
    · split <;> linarith
    · linarith
  · linarith

theorem calculateOverallProgress_spec (p : Progress) (course : Course)
    (now : Millis) (ht : 0 < course.modules.length) :
    (p.calculateOverallProgress course now).progressPercentage =
      (if course.quiz then
        jsRound ((((p.modulesProgress.filter fun m =>
            m.status == ModuleStatus.completed).length : ℚ) /
          (course.modules.length : ℚ)) * 80 + (if p.quizPassed then 20 else 0))
       else
        jsRound ((((p.modulesProgress.filter fun m =>
            m.status == ModuleStatus.completed).length : ℚ) /
          (course.modules.length : ℚ)) * 100)) ∧
    ((p.calculateOverallProgress course now).progressPercentage = 100 →
      (p.calculateOverallProgress course now).status = ProgressStatus.completed) ∧
    (0 < (p.calculateOverallProgress course now).progressPercentage →
      (p.calculateOverallProgress course now).progressPercentage < 100 →
      (p.calculateOverallProgress course now).status = ProgressStatus.inProgress) ∧
    ((p.calculateOverallProgress course now).progressPercentage = 0 →
      (p.calculateOverallProgress course now).status = p.status) := by
  refine ⟨?_, ?_, ?_, ?_⟩
  · rw [calcOverall_pct]
    simp [ht, apply_ite jsRound]
  · intro h100
    rw [calcOverall_status, if_pos h100]
  · intro hpos hlt
    rw [calcOverall_status, if_neg (by omega), if_pos hpos]
  · intro h0
    rw [calcOverall_status, if_neg (by omega), if_neg (by omega)]

/-- Claim C4 witness: with one module completed out of one (no quiz) the
recomputed percentage is 100 and the status becomes completed. -/
theorem calculateOverallProgress_spec_witness :
    0 < courseOneModule.modules.length ∧
    (progressAllDone.calculateOverallProgress courseOneModule 7).progressPercentage =
      (if courseOneModule.quiz then
        jsRound ((((progressAllDone.modulesProgress.filter fun m =>
            m.status == ModuleStatus.completed).length : ℚ) /
          (courseOneModule.modules.length : ℚ)) * 80 +
          (if progressAllDone.quizPassed then 20 else 0))
       else
        jsRound ((((progressAllDone.modulesProgress.filter fun m =>
            m.status == ModuleStatus.completed).length : ℚ) /
          (courseOneModule.modules.length : ℚ)) * 100)) ∧
    ((progressAllDone.calculateOverallProgress courseOneModule 7).progressPercentage = 100 →
      (progressAllDone.calculateOverallProgress courseOneModule 7).status =
        ProgressStatus.completed) := by
  have h := calculateOverallProgress_spec progressAllDone courseOneModule 7 (by decide)
  exact ⟨by decide, h.1, h.2.1⟩

/-- Claim C4 counterexample: a progress record in status in-progress with
one started but uncompleted module recomputes to percentage 0, and its
status stays in-progress instead of becoming not-started as the claim
requires. -/
theorem calculateOverallProgress_zero_counterexample :
    (progressStartedModule.calculateOverallProgress courseOneModule 7).progressPercentage = 0 ∧
    (progressStartedModule.calculateOverallProgress courseOneModule 7).status =
      ProgressStatus.inProgress := by
  constructor
  · with_unfolding_all rfl
  · with_unfolding_all rfl

/-- Claim C5 (amended): markCompleted always yields percentage 100, status
completed, and completedAt equal to now — reassigning completedAt even
when it was already set; calculateOverallProgress never overwrites an
already-set completedAt; and after calculateOverallProgress the
equivalence percentage 100 iff status completed holds whenever the
recomputed percentage is nonzero or the prior status was not completed
(at percentage 0 the prior status survives unchanged). -/
theorem completedAt_behavior (p : Progress) (course : Course) (now : Millis) :
    ((p.markCompleted now).progressPercentage = 100 ∧
     (p.markCompleted now).status = ProgressStatus.completed ∧
     (p.markCompleted now).completedAt = some now) ∧
    (∀ d, p.completedAt = some d →
      (p.calculateOverallProgress course now).completedAt = some d) ∧
    (((p.calculateOverallProgress course now).progressPercentage ≠ 0 ∨
        p.status ≠ ProgressStatus.completed) →
      ((p.calculateOverallProgress course now).progressPercentage = 100 ↔
        (p.calculateOverallProgress course now).status = ProgressStatus.completed)) := by
  refine ⟨⟨rfl, rfl, rfl⟩, ?_, ?_⟩
  · intro d hd
    rw [calcOverall_completedAt]
    split <;> simp [hd]
  · intro hside
    have hnn := calcOverall_pct_nonneg p course now
    constructor
    · intro h100
      rw [calcOverall_status, if_pos h100]
    · intro hcomp
      by_contra h100
      rw [calcOverall_status, if_neg h100] at hcomp
      by_cases hpos : 0 < (p.calculateOverallProgress course now).progressPercentage
      · rw [if_pos hpos] at hcomp
        exact absurd hcomp (by simp)
      · rw [if_neg hpos] at hcomp
        rcases hside with h | h
        · omega
        · exact h hcomp

/-- Claim C5 witness: recomputing an already-completed one-module course
keeps completedAt at its original stamp 1, and the percentage-status
equivalence holds there. -/
theorem completedAt_behavior_witness :
    (progressCompletedAt1.calculateOverallProgress courseOneModule 9).completedAt = some 1 ∧
    ((progressCompletedAt1.calculateOverallProgress courseOneModule 9).progressPercentage = 100 ↔
      (progressCompletedAt1.calculateOverallProgress courseOneModule 9).status =
        ProgressStatus.completed) := by
  have h := completedAt_behavior progressCompletedAt1 courseOneModule 9
  exact ⟨h.2.1 1 (by decide),
    h.2.2 (Or.inl (of_decide_eq_true (by with_unfolding_all rfl)))⟩

/-- Claim C5 counterexample: the course-completion trigger of the module
progress route re-fires markCompleted on an already-completed progress
record (percentage 100, completedAt stamped at 1) and reassigns
completedAt to the new time 2, while the claim requires completedAt to be
assigned exactly once. -/
theorem completedAt_reassigned_counterexample :
    progressCompletedAt1.completedAt = some 1 ∧
    progressCompletedAt1.status = ProgressStatus.completed ∧
    (courseCompletionTrigger progressCompletedAt1 2).completedAt = some 2 := by decide

/-- With pairwise-distinct application ids, replacing the first id match is
the same as replacing every id match pointwise. -/
theorem updateFirstApp_const_eq_map (apps : List Application) (aid : ℕ)
    (c : Application) (hnodup : (apps.map fun a => a.id).Nodup) :
    updateFirstApp apps aid (fun _ => c) =
      apps.map fun b => if b.id = aid then c else b := by
  induction apps with
  | nil => rfl
  | cons a rest ih =>
    simp only [List.map_cons, List.nodup_cons] at hnodup
    by_cases h : a.id = aid
    · have hrest : ∀ b ∈ rest, ¬ b.id = aid := by
        intro b hb hba
        exact hnodup.1 (by rw [h, ← hba]; exact List.mem_map_of_mem _ hb)
      have hmap : (rest.map fun b => if b.id = aid then c else b) = rest := by
        rw [List.map_congr_left fun b hb => if_neg (hrest b hb)]
        exact List.map_id rest
      simp [updateFirstApp, h, hmap]
    · simp [updateFirstApp, h, ih hnodup.2]

/-- Claim C2 (amended): accepting a pending application sets exactly that
application to accepted (stamping responseAt and the response message),
rejects every other pending application with the message Position has
been filled, leaves applications in other statuses unchanged, assigns the
gig to the accepted applicant, stamps assignedAt, and moves the gig to
in-progress; provided no application on the gig was already accepted
before the call, exactly one application is accepted afterwards. -/
theorem updateApplicationStatus_accept_spec (g : Gig) (aid : ℕ) (msg : String)
    (now : Millis) (app : Application)
    (hnodup : (g.applications.map fun a => a.id).Nodup)
    (hfind : g.applications.find? (fun a => a.id == aid) = some app)
    (hpend : app.status = AppStatus.pending)
    (hnoacc : ∀ b ∈ g.applications, b.status ≠ AppStatus.accepted) :
    ∃ g2, g.updateApplicationStatus aid AppStatus.accepted msg now =
        Except.ok (g2, appWithStatus app AppStatus.accepted msg now) ∧
      g2.assignedTo = some app.applicantId ∧
      g2.assignedAt = some now ∧
      g2.status = GigStatus.inProgress ∧
      g2.applications = g.applications.map (fun b =>
        if b.id = aid then appWithStatus app AppStatus.accepted msg now
        else if b.status = AppStatus.pending then
          appWithStatus b AppStatus.rejected "Position has been filled" now
        else b) ∧
      (g2.applications.filter fun b => b.status == AppStatus.accepted).length = 1 := by
  have hmem : app ∈ g.applications := List.mem_of_find?_eq_some hfind
  have hid : app.id = aid := by
    have := List.find?_some hfind
    simpa using this
  have heq : g.updateApplicationStatus aid AppStatus.accepted msg now =
      Except.ok ({ g with
          assignedTo := some app.applicantId,
          assignedAt := some now,
          status := GigStatus.inProgress,
          applications := (updateFirstApp g.applications aid
            (fun _ => appWithStatus app AppStatus.accepted msg now)).map
            (rejectOtherPending aid now) },
        appWithStatus app AppStatus.accepted msg now) := by
    simp [Gig.updateApplicationStatus, hfind, appWithStatus]
  refine ⟨_, heq, rfl, rfl, rfl, ?_, ?_⟩
  · show (updateFirstApp g.applications aid
        (fun _ => appWithStatus app AppStatus.accepted msg now)).map
        (rejectOtherPending aid now) =
      g.applications.map (fun b =>
        if b.id = aid then appWithStatus app AppStatus.accepted msg now
        else if b.status = AppStatus.pending then
          appWithStatus b AppStatus.rejected "Position has been filled" now
        else b)
    rw [updateFirstApp_const_eq_map _ _ _ hnodup, List.map_map]
    refine List.map_congr_left fun b hb => ?_
    by_cases hb1 : b.id = aid
    · simp [hb1, rejectOtherPending, appWithStatus]
    · by_cases hb2 : b.status = AppStatus.pending
      · simp [rejectOtherPending, hb1, hb2]
      · simp [rejectOtherPending, hb1, hb2]
  · show (List.filter (fun b => b.status == AppStatus.accepted)
        ((updateFirstApp g.applications aid
          (fun _ => appWithStatus app AppStatus.accepted msg now)).map
          (rejectOtherPending aid now))).length = 1
    rw [updateFirstApp_const_eq_map _ _ _ hnodup, List.map_map,
      ← List.countP_eq_length_filter, List.countP_map]
    have hcong : ∀ b ∈ g.applications,
        ((((fun x => x.status == AppStatus.accepted) ∘
          rejectOtherPending aid now ∘ fun x =>
            if x.id = aid then appWithStatus app AppStatus.accepted msg now
            else x) b) = true) ↔ (((fun x => x.id == aid) b) = true) := by
      intro b hb
      by_cases hb1 : b.id = aid
      · simp [hb1, rejectOtherPending, appWithStatus]

      · have hb3 := hnoacc b hb
        by_cases hb2 : b.status = AppStatus.pending
        · simp [rejectOtherPending, appWithStatus, hb1, hb2]
        · simp [rejectOtherPending, appWithStatus, hb1, hb2, hb3]
    rw [List.countP_congr hcong]
    have hcount : List.countP (fun b => b.id == aid) g.applications =
        (g.applications.map fun a => a.id).count aid := by
      rw [List.count, List.countP_map]
      rfl
    rw [hcount]
    have hle := List.nodup_iff_count_le_one.mp hnodup aid
    have hpos : 0 < (g.applications.map fun a => a.id).count aid := by
      rw [List.count_pos_iff]
      rw [← hid]
      exact List.mem_map_of_mem _ hmem
    omega

/-- Claim C2 counterexample: on a gig that already carries an accepted
application (id 1) plus a pending one (id 2), accepting the pending one
succeeds and leaves two accepted applications, violating the claimed
at-most-one-accepted consequence. -/
theorem updateApplicationStatus_two_accepted_counterexample :
    appPending2.status = AppStatus.pending ∧
    (gigOneAcceptedOnePending.updateApplicationStatus 2 AppStatus.accepted "" 5).toOption.map
      (fun pr => (pr.1.applications.filter fun b =>
        b.status == AppStatus.accepted).length) = some 2 := by decide

/-- Claim C2 witness: accepting the first of three pending applications
leaves exactly one accepted, the gig assigned and in-progress. -/
theorem updateApplicationStatus_accept_spec_witness :
    ∃ g2, gigThreePending.updateApplicationStatus 1 AppStatus.accepted "ok" 6 =
        Except.ok (g2, appWithStatus appP1 AppStatus.accepted "ok" 6) ∧
      g2.assignedTo = some appP1.applicantId ∧
      g2.assignedAt = some 6 ∧
      g2.status = GigStatus.inProgress ∧
      g2.applications = gigThreePending.applications.map (fun b =>
        if b.id = 1 then appWithStatus appP1 AppStatus.accepted "ok" 6
        else if b.status = AppStatus.pending then
          appWithStatus b AppStatus.rejected "Position has been filled" 6
        else b) ∧
      (g2.applications.filter fun b => b.status == AppStatus.accepted).length = 1 := by
  exact updateApplicationStatus_accept_spec gigThreePending 1 "ok" 6 appP1
    (by decide) (by decide) (by decide) (by decide)

/-- Claim C8: the code evaluated at the failing input — updating an
application whose status is already accepted (not pending) succeeds and
overwrites its status, responseAt, and response message, with no
StateError and with the gig modified. -/
theorem updateApplicationStatus_resolved_behavior :
    gigResolvedApp.applications.map (fun a => a.status) = [AppStatus.accepted] ∧
    (gigResolvedApp.updateApplicationStatus 1 AppStatus.rejected "changed" 9).toOption.map
      (fun pr => (pr.2.status, pr.2.responseMessage,
        pr.1.applications.map fun a => a.status)) =
      some (AppStatus.rejected, "changed", [AppStatus.rejected]) := by decide

/-- Claim C10: the pre-find and pre-findOne hooks conjoin the filter
expiresAt greater than now to every gig query, so a gig whose expiry is
not strictly in the future is returned by no find, and a findOne or
findById lookup over gigs all of whose id matches are expired returns
nothing; consequently the completion route reports such a gig as not
found, so an in-progress gig whose expiry has passed can no longer be
completed. -/
theorem expiredGig_invisible (db : List Gig) (cond : Gig → Bool) (gid : ℕ)
    (now : Millis) (userId : ℕ) (isAdmin : Bool) (cr : Option ℚ) (cf : String)
    (wr : Option ℚ) (wf : String) :
    (∀ g ∈ gigFind db cond now, now < g.expiresAt) ∧
    ((∀ g ∈ db, g.id = gid → g.expiresAt ≤ now) →
      gigFindById db gid now = none ∧
      completeGigRoute db gid userId isAdmin cr cf wr wf now =
        Except.error "Gig not found") := by
  constructor
  · intro g hg
    rw [gigFind, List.mem_filter] at hg
    have := hg.2
    simp at this
    exact this.2
  · intro hall
    have hnil : gigFind db (fun g => g.id == gid) now = [] := by
      rw [gigFind, List.filter_eq_nil_iff]
      intro a ha
      simp
      intro hid
      exact hall a ha hid
    have hnone : gigFindById db gid now = none := by
      rw [gigFindById, gigFindOne, hnil]
      rfl
    refine ⟨hnone, ?_⟩
    rw [completeGigRoute, hnone]

/-- Claim C10 witness: a single stored in-progress gig with expiry 50 is
invisible at time 100 and its completion route answers Gig not found. -/
theorem expiredGig_invisible_witness :
    (∀ g ∈ [gigExpired], g.id = 11 → g.expiresAt ≤ 100) ∧
    gigFindById [gigExpired] 11 100 = none ∧
    completeGigRoute [gigExpired] 11 3 false none "" none "" 100 =
      Except.error "Gig not found" := by
  have hh : ∀ g ∈ [gigExpired], g.id = 11 → g.expiresAt ≤ 100 := by decide
  have h := (expiredGig_invisible [gigExpired] (fun _ => true) 11 100 3 false
    none "" none "").2 hh
  exact ⟨hh, h.1, h.2⟩

/-- addBadge never changes xp. -/
theorem addBadge_xp (u : User) (i : ℕ) (c : Option ℕ) :
    (u.addBadge i c).1.xp = u.xp := by
  simp only [User.addBadge]
  split <;> rfl

/-- When no entry with the badge id exists, addBadge appends the entry. -/
theorem addBadge_fresh (u : User) (i : ℕ) (c : Option ℕ)
    (h : (u.badges.any fun e => e.badgeId == i) = false) :
    (u.addBadge i c).1.badges = u.badges ++ [⟨i, c⟩] := by
  unfold User.addBadge
  have hf : (u.badges.find? fun b =>
      b.badgeId == i && (c == none || b.courseId == c)) = none := by
    rw [List.find?_eq_none]
    intro a ha
    simp only [Bool.and_eq_true, beq_iff_eq, not_and]
    intro hbi
    have : ∀ e ∈ u.badges, ¬ (e.badgeId == i) = true := by
      simpa using h
    exact absurd (by simpa using hbi) (by simpa using this a ha)
  rw [hf]

/-- addXP succeeds whenever the resulting xp is nonnegative. -/
theorem addXP_isOk (u : User) (amount : ℤ) (reason : String) (t : Millis)
    (h : 0 ≤ u.xp + amount) : (u.addXP amount reason t).isOk = true := by
  have hnn : ¬ (u.xp + amount < 0) := by omega
  by_cases hstr : (strIncludes reason "course" || strIncludes reason "gig") = true <;>
    by_cases hgt : u.level < levelOf (u.xp + amount) <;>
      simp [User.addXP, User.updateLevel, User.updateStreak, hstr, hgt, hnn,
        Except.isOk, Except.toBool]

/-- A successful addXP leaves the badges list untouched. -/
theorem addXP_ok_badges (u : User) (amount : ℤ) (reason : String) (t : Millis)
    (u2 : User) (r : AddXPResult)
    (h : u.addXP amount reason t = Except.ok (u2, r)) : u2.badges = u.badges := by
  by_cases hstr : (strIncludes reason "course" || strIncludes reason "gig") = true <;>
    by_cases hgt : u.level < levelOf (u.xp + amount) <;>
      by_cases hneg : u.xp + amount < 0 <;>
        simp [User.addXP, User.updateLevel, User.updateStreak, hstr, hgt, hneg] at h <;>
          (obtain ⟨h1, h2⟩ := h; subst h1; rfl)

/-- A true eligibility verdict means every short-circuit check passed. -/
theorem checkEligibility_true_parts (b : Badge) (u : User) (now : Millis)
    (h : (b.checkEligibility u now).eligible = true) :
    ¬ (b.isActive = false) ∧ ¬ (b.availableFrom > now) ∧
    ¬ ((match b.availableUntil with
        | some t => decide (t < now)
        | none => false) = true) ∧
    ¬ (0 < b.prerequisites.length ∧
       ¬ ((b.prerequisites.all fun pre =>
          (u.badges.map fun e => e.badgeId).contains pre) = true)) ∧
    ¬ ((u.badges.any fun e => e.badgeId == b.id) = true) := by
  unfold Badge.checkEligibility at h
  split_ifs at h with h1 h2 h3 h4 h5
  exact ⟨h1, h2, h3, h4, h5⟩

/-- When the time and prerequisite checks pass but the badge is already in
the badges list, checkEligibility reports Badge already earned. -/
theorem checkEligibility_already_earned (b : Badge) (u : User) (now : Millis)
    (h1 : ¬ (b.isActive = false)) (h2 : ¬ (b.availableFrom > now))
    (h3 : ¬ ((match b.availableUntil with
        | some t => decide (t < now)
        | none => false) = true))
    (h4 : ¬ (0 < b.prerequisites.length ∧
       ¬ ((b.prerequisites.all fun pre =>
          (u.badges.map fun e => e.badgeId).contains pre) = true)))
    (h5 : (u.badges.any fun e => e.badgeId == b.id) = true) :
    b.checkEligibility u now =
      { eligible := false, reason := "Badge already earned", progress := none } := by
  unfold Badge.checkEligibility
  rw [if_neg h1, if_neg h2, if_neg h3, if_neg h4, if_pos h5]

/-- awardToUser fails exactly when checkEligibility reports ineligible,
provided xp and the xp reward are nonnegative (so that the save inside
addXP cannot fail). -/
theorem awardToUser_error_iff (b : Badge) (u : User) (c : Option ℕ) (t : Millis)
    (hxp : 0 ≤ u.xp) (hxr : 0 ≤ b.xpReward) :
    ((b.awardToUser u c t).isOk = false ↔
      (b.checkEligibility u t).eligible = false) := by
  by_cases he : (b.checkEligibility u t).eligible = false
  · simp [Badge.awardToUser, he, Except.isOk, Except.toBool]
  · have he' : (b.checkEligibility u t).eligible = true := by
      cases hx : (b.checkEligibility u t).eligible
      · exact absurd hx he
      · rfl
    simp only [Badge.awardToUser, he']
    rw [if_neg (by simp)]
    by_cases hr : 0 < b.xpReward
    · rw [if_pos hr]
      have hxp1 : (u.addBadge b.id c).1.xp = u.xp := addBadge_xp u b.id c
      have hok : ((u.addBadge b.id c).1.addXP b.xpReward
          ("Badge earned: " ++ b.name) t).isOk = true :=
        addXP_isOk _ _ _ _ (by rw [hxp1]; omega)
      cases hax : (u.addBadge b.id c).1.addXP b.xpReward
          ("Badge earned: " ++ b.name) t with
      | error e => rw [hax] at hok; simp [Except.isOk, Except.toBool] at hok
      | ok pr => simp [hax, Except.map, Except.isOk, Except.toBool, he']
    · rw [if_neg hr]
      simp [Except.map, Except.isOk, Except.toBool, he']

/-- Claim C6 (amended): a successful awardToUser increments earnedCount by
exactly one, and a second award of the same badge to the resulting user
fails with Badge already earned rather than being a silent no-op — the
stored state is only protected because the call throws before mutating;
in general awardToUser fails exactly when checkEligibility reports
ineligible (for nonnegative xp and xp reward). -/
theorem awardBadge_idempotence_spec (b : Badge) (u : User) (courseId : Option ℕ)
    (now : Millis) (b1 : Badge) (u1 : User)
    (hok : b.awardToUser u courseId now = Except.ok (b1, u1)) :
    b1.earnedCount = b.earnedCount + 1 ∧
    b1.awardToUser u1 courseId now = Except.error "Badge already earned" ∧
    (∀ (b0 : Badge) (u0 : User) (c0 : Option ℕ) (t0 : Millis),
      0 ≤ u0.xp → 0 ≤ b0.xpReward →
      ((b0.awardToUser u0 c0 t0).isOk = false ↔
        (b0.checkEligibility u0 t0).eligible = false)) := by
  have helig : (b.checkEligibility u now).eligible = true := by
    by_contra hne
    have hf : (b.checkEligibility u now).eligible = false := by
      cases hx : (b.checkEligibility u now).eligible
      · rfl
      · exact absurd hx hne
    simp only [Badge.awardToUser, hf, if_pos] at hok
    cases hok
  have hparts := checkEligibility_true_parts b u now helig
  have hany : (u.badges.any fun e => e.badgeId == b.id) = false := by
    cases hx : (u.badges.any fun e => e.badgeId == b.id)
    · rfl
    · exact absurd hx hparts.2.2.2.2
  have hfresh : (u.addBadge b.id courseId).1.badges =
      u.badges ++ [⟨b.id, courseId⟩] := addBadge_fresh u b.id courseId hany
  -- decompose the successful first call
  have hmain : b1 = { b with earnedCount := b.earnedCount + 1 } ∧
      u1.badges = u.badges ++ [⟨b.id, courseId⟩] := by
    simp only [Badge.awardToUser, helig] at hok
    rw [if_neg (by simp)] at hok
    by_cases hr : 0 < b.xpReward
    · rw [if_pos hr] at hok
      cases hax : (u.addBadge b.id courseId).1.addXP b.xpReward
          ("Badge earned: " ++ b.name) now with
      | error e => rw [hax] at hok; simp [Except.map] at hok
      | ok pr =>
        rw [hax] at hok
        simp [Except.map] at hok
        obtain ⟨hb1, hu1⟩ := hok
        refine ⟨hb1.symm, ?_⟩
        rw [← hu1]
        rw [addXP_ok_badges _ _ _ _ pr.1 pr.2 (by rw [hax])]
        exact hfresh
    · rw [if_neg hr] at hok
      simp [Except.map] at hok
      obtain ⟨hb1, hu1⟩ := hok
      exact ⟨hb1.symm, by rw [← hu1]; exact hfresh⟩
  obtain ⟨hb1, hu1badges⟩ := hmain
  subst hb1
  refine ⟨rfl, ?_, fun b0 u0 c0 t0 hxp0 hxr0 =>
    awardToUser_error_iff b0 u0 c0 t0 hxp0 hxr0⟩
  -- the second call fails with Badge already earned
  have h4' : ¬ (0 < b.prerequisites.length ∧
      ¬ ((b.prerequisites.all fun pre =>
        (u1.badges.map fun e => e.badgeId).contains pre) = true)) := by
    rintro ⟨hlen, hnall⟩
    refine hnall ?_
    have hall : (b.prerequisites.all fun pre =>
        (u.badges.map fun e => e.badgeId).contains pre) = true := by
      by_contra hn
      exact hparts.2.2.2.1 ⟨hlen, hn⟩
    rw [hu1badges]
    simp only [List.all_eq_true] at hall ⊢
    intro pre hpre
    have hc := hall pre hpre
    simp only [List.contains_eq_any_beq, List.map_append, List.any_append] at hc ⊢
    rw [hc]
    rfl
  have h5' : (u1.badges.any fun e => e.badgeId == b.id) = true := by
    rw [hu1badges]
    simp
  have hchk := checkEligibility_already_earned
    { b with earnedCount := b.earnedCount + 1 } u1 now
    hparts.1 hparts.2.1 hparts.2.2.1 h4' h5'
  simp only [Badge.awardToUser, hchk]
  rw [if_pos (by simp)]

/-- Claim C6 counterexample: awarding badgeStarter to a fresh user succeeds
once, and the second award of the same badge to the resulting user throws
Badge already earned — it is an error, not the silent no-op the claim
requires. -/
theorem awardBadge_second_error_counterexample :
    badgeStarter.awardToUser emptyUser none 4 =
      Except.ok (badgeStarterAfter, userAfterStarter) ∧
    badgeStarterAfter.awardToUser userAfterStarter none 4 =
      Except.error "Badge already earned" := ⟨rfl, rfl⟩

/-- Claim C6 witness: instantiating the amended award theorem at the
concrete first award of badgeStarter to a fresh user. -/
theorem awardBadge_idempotence_spec_witness :
    badgeStarterAfter.earnedCount = badgeStarter.earnedCount + 1 ∧
    badgeStarterAfter.awardToUser userAfterStarter none 4 =
      Except.error "Badge already earned" ∧
    (∀ (b0 : Badge) (u0 : User) (c0 : Option ℕ) (t0 : Millis),
      0 ≤ u0.xp → 0 ≤ b0.xpReward →
      ((b0.awardToUser u0 c0 t0).isOk = false ↔
        (b0.checkEligibility u0 t0).eligible = false)) :=
  awardBadge_idempotence_spec badgeStarter emptyUser none 4
    badgeStarterAfter userAfterStarter rfl

end SkillBridge
